import Mathlib

/-!
Verification development for the round-based crawl orchestrator.

The definitions below are a shallow embedding of the account-status /
compensation state machine (src/database/account_status_manager.py and
loop_crawler.py) and of the proxy lease manager
(src/core/enhanced_proxy_manager.py).  Database tables are lists of rows,
timestamps and calendar dates are integers, and every database call is a
pure function on the table state.  SQL statements are translated under
MySQL semantics (the store is MySQL via pymysql); in particular the SET
assignments of a single-table UPDATE are evaluated left to right, with a
later assignment seeing the value written by an earlier one, as the MySQL
reference manual documents for UPDATE.
-/

namespace AWC

/-- Status values of the fx_account_status table.  ACTIVE is included
because update_last_crawl_time writes it. -/
inductive AcctStatus where
  | PENDING
  | PROCESSING
  | COMPLETED
  | EXCEPTION
  | FAILED
  | RETRYING
  | ACTIVE
deriving DecidableEq, Repr

/-- SQL string of a status, used in the fallback failure reason. -/
def statusName : AcctStatus → String
  | AcctStatus.PENDING => "PENDING"
  | AcctStatus.PROCESSING => "PROCESSING"
  | AcctStatus.COMPLETED => "COMPLETED"
  | AcctStatus.EXCEPTION => "EXCEPTION"
  | AcctStatus.FAILED => "FAILED"
  | AcctStatus.RETRYING => "RETRYING"
  | AcctStatus.ACTIVE => "ACTIVE"

/-- Status values of the fx_compensation_history table. -/
inductive CompStatus where
  | PENDING
  | COMPLETED
  | FAILED
deriving DecidableEq, Repr

/-- Status values of the fx_crawl_exception ledger. -/
inductive LedgerStatus where
  | finished
  | unfinished
deriving DecidableEq, Repr

/-- One row of fx_account_status.  Dates and timestamps are integers
(days and seconds); nullable columns are Option. -/
structure AccountRow where
  account_id : String
  account_name : String
  status : AcctStatus
  retry_count : Int
  last_exception_msg : Option String
  next_retry_time : Option Int
  compensation_priority : Int
  consecutive_failures : Option Int
  last_failed_date : Option Int
  failed_reason_backup : Option String
  last_update_time : Int
  update_time : Int
deriving DecidableEq, Repr

/-- One row of fx_compensation_history (create_time is omitted: no
operation modelled here ever reads it). -/
structure CompRow where
  account_id : String
  account_name : String
  failed_date : Int
  failure_reason : Option String
  compensation_status : CompStatus
  compensation_date : Option Int
  update_time : Int
deriving DecidableEq, Repr

/-- One row of the append-only fx_crawl_exception ledger. -/
structure LedgerRow where
  finished_date : Int
  status : LedgerStatus
deriving DecidableEq, Repr

/-- The persistent state: the three tables. -/
structure DB where
  accounts : List AccountRow
  comps : List CompRow
  ledger : List LedgerRow
deriving DecidableEq, Repr

/-- status IN ('EXCEPTION', 'FAILED'). -/
def isEF (s : AcctStatus) : Bool :=
  decide (s = AcctStatus.EXCEPTION ∨ s = AcctStatus.FAILED)

/-- The failure reason written to the compensation table:
account['last_exception_msg'] or "状态异常: status" — Python `or`
treats an empty string as falsy too. -/
def compReason (r : AccountRow) : String :=
  match r.last_exception_msg with
  | some m => if m = "" then "状态异常: " ++ statusName r.status else m
  | none => "状态异常: " ++ statusName r.status

/-- Key match for the unique (account_id, failed_date) index. -/
def compKeyMatches (id : String) (d : Int) (c : CompRow) : Bool :=
  decide (c.account_id = id ∧ c.failed_date = d)

/-- INSERT ... ON DUPLICATE KEY UPDATE of one failed account into
fx_compensation_history: a new row is inserted as PENDING; an existing
row for the same (account_id, failed_date) only has its failure_reason
and update_time refreshed (its compensation_status is kept). -/
def upsertCompensation (now today : Int) (r : AccountRow) (cs : List CompRow) :
    List CompRow :=
  if cs.any (compKeyMatches r.account_id today) then
    cs.map (fun c =>
      if compKeyMatches r.account_id today c then
        { c with failure_reason := some (compReason r), update_time := now }
      else c)
  else
    cs ++ [{ account_id := r.account_id
             account_name := r.account_name
             failed_date := today
             failure_reason := some (compReason r)
             compensation_status := CompStatus.PENDING
             compensation_date := none
             update_time := now }]

/-- _record_failed_accounts_for_compensation: every account currently in
EXCEPTION or FAILED is upserted into fx_compensation_history keyed by
(account_id, today). -/
def record_failed_accounts_for_compensation (now today : Int) (db : DB) : DB :=
  let failed := db.accounts.filter (fun a => isEF a.status)
  { db with comps := failed.foldl (fun cs a => upsertCompensation now today a cs) db.comps }

/-- record_current_failures_to_compensation: the same flush, run at the
orchestrator's request with the current date. -/
def record_current_failures_to_compensation (now today : Int) (db : DB) : DB :=
  record_failed_accounts_for_compensation now today db

/-- last_failed_date IS NULL OR last_failed_date < today. -/
def lfdBeforeToday (lfd : Option Int) (today : Int) : Bool :=
  match lfd with
  | none => true
  | some d => decide (d < today)

/-- The row transformation of the snapshot UPDATE of
reset_all_accounts_to_pending, applied to rows whose status is in
(EXCEPTION, FAILED, RETRYING).  MySQL evaluates the SET assignments left
to right, so the consecutive_failures CASE reads the last_failed_date
value written two assignments earlier; when that date was just set to
today, the increment condition is already false. -/
def updateCompensationRow (today : Int) (r : AccountRow) : AccountRow :=
  let frb := if isEF r.status && r.last_exception_msg.isSome then
               r.last_exception_msg
             else r.failed_reason_backup
  let lfd := if isEF r.status && lfdBeforeToday r.last_failed_date today then
               some today
             else r.last_failed_date
  let cp : Int := if isEF r.status then 1
                  else if r.status = AcctStatus.RETRYING then 1
                  else r.compensation_priority
  let cf := if isEF r.status && lfdBeforeToday lfd today then
              some ((r.consecutive_failures.getD 0) + 1)
            else if r.status = AcctStatus.COMPLETED then some 0
            else r.consecutive_failures
  { r with failed_reason_backup := frb
           last_failed_date := lfd
           compensation_priority := cp
           consecutive_failures := cf }

/-- Snapshot phase: the first UPDATE of reset_all_accounts_to_pending,
scoped by WHERE status IN ('EXCEPTION', 'FAILED', 'RETRYING'). -/
def snapshotPhase (today : Int) (db : DB) : DB :=
  { db with accounts := db.accounts.map (fun r =>
      if isEF r.status || r.status = AcctStatus.RETRYING then
        updateCompensationRow today r
      else r) }

/-- The row reset of the second UPDATE: status to PENDING, message and
next retry time cleared, timestamps refreshed. -/
def resetStatusRow (now : Int) (r : AccountRow) : AccountRow :=
  { r with status := AcctStatus.PENDING
           last_update_time := now
           update_time := now
           last_exception_msg := none
           next_retry_time := none }

/-- Reset phase: the second UPDATE, scoped by WHERE status != 'PENDING'. -/
def resetPhase (now : Int) (db : DB) : DB :=
  { db with accounts := db.accounts.map (fun r =>
      if r.status = AcctStatus.PENDING then r else resetStatusRow now r) }

/-- reset_all_accounts_to_pending: flush failed accounts to the
compensation table, then the snapshot UPDATE, then the reset UPDATE.
The call reports success whether or not any row changed. -/
def reset_all_accounts_to_pending (now today : Int) (db : DB) : Bool × DB :=
  let db1 := record_failed_accounts_for_compensation now today db
  let db2 := snapshotPhase today db1
  let db3 := resetPhase now db2
  (true, db3)

/-- WHERE account_id = X AND compensation_status = 'PENDING'
AND failed_date >= CURDATE() - INTERVAL 7 DAY. -/
def compInWindowPending (today : Int) (id : String) (c : CompRow) : Bool :=
  decide (c.account_id = id ∧ c.compensation_status = CompStatus.PENDING ∧
          today - 7 ≤ c.failed_date)

/-- The compensation row after a successful mark-complete. -/
def completedCompRow (now today : Int) (c : CompRow) : CompRow :=
  { c with compensation_status := CompStatus.COMPLETED
           compensation_date := some today
           update_time := now }

/-- The account row after mark_compensation_completed. -/
def completedAccountRow (now : Int) (a : AccountRow) : AccountRow :=
  { a with compensation_priority := 0
           consecutive_failures := some 0
           last_update_time := now
           update_time := now }

/-- mark_compensation_completed: zero compensation_priority and
consecutive_failures on the account row, and complete the PENDING
compensation rows of the trailing 7-day window. -/
def mark_compensation_completed (now today : Int) (id : String) (db : DB) :
    Bool × DB :=
  (true,
   { db with
       accounts := db.accounts.map (fun a =>
         if a.account_id = id then completedAccountRow now a else a)
       comps := db.comps.map (fun c =>
         if compInWindowPending today id c then completedCompRow now today c else c) })

/-- mark_compensation_failed: fail the PENDING rows of the trailing
7-day window; when none matched, insert a fresh FAILED row for today for
every fx_account_status row of that account. -/
def mark_compensation_failed (now today : Int) (id : String)
    (reason : Option String) (db : DB) : DB :=
  let matched := db.comps.countP (compInWindowPending today id)
  if matched = 0 then
    { db with comps := db.comps ++
        (db.accounts.filter (fun a => decide (a.account_id = id))).map (fun a =>
          { account_id := a.account_id
            account_name := a.account_name
            failed_date := today
            failure_reason := reason
            compensation_status := CompStatus.FAILED
            compensation_date := none
            update_time := now }) }
  else
    { db with comps := db.comps.map (fun c =>
        if compInWindowPending today id c then
          { c with compensation_status := CompStatus.FAILED
                   update_time := now
                   failure_reason := match reason with
                     | some s => some s
                     | none => c.failure_reason }
        else c) }

/-- resolve_crawl_exception: append one finished event to the ledger. -/
def resolve_crawl_exception (now : Int) (db : DB) : DB :=
  { db with ledger := db.ledger ++ [{ finished_date := now, status := LedgerStatus.finished }] }

/-- mark_crawl_unfinished: append one unfinished event to the ledger
(the note argument of the Python method is never stored). -/
def mark_crawl_unfinished (now : Int) (db : DB) : DB :=
  { db with ledger := db.ledger ++ [{ finished_date := now, status := LedgerStatus.unfinished }] }

/-- One attempted account of a crawl pass, as carried by loop_crawler. -/
structure Attempted where
  account_id : String
  account_name : String
deriving DecidableEq, Repr

/-- ids = [r.get("account_id") for r in attempted_accounts if r.get("account_id")] —
an empty string is falsy in Python and is filtered out. -/
def attempted_ids (att : List Attempted) : List String :=
  (att.filter (fun r => decide (¬ r.account_id = ""))).map (fun r => r.account_id)

/-- _is_full_success of loop_crawler: the SELECT returns only the
account_status rows whose account_id is among the attempted ids, and the
check passes when that result set is non-empty and every returned row is
COMPLETED (the stored status string is upper-cased before comparison,
which the status enum absorbs). -/
def is_full_success (att : List Attempted) (db : DB) : Bool :=
  if att.isEmpty then false
  else
    let ids := attempted_ids att
    if ids.isEmpty then false
    else
      let rows := db.accounts.filter (fun a => decide (a.account_id ∈ ids))
      if rows.isEmpty then false
      else rows.all (fun a => decide (a.status = AcctStatus.COMPLETED))

/-- Outcome of the external crawl subprocess: an exit code, a timeout,
or an exception raised while invoking it (carrying str(e)). -/
inductive RunResult where
  | exited (code : Int)
  | timedOut
  | raised (emsg : String)
deriving DecidableEq, Repr

/-- _run_cmd in mode "full".  In the exit-0 branch the bookkeeping is
performed only when is_test_mode is false; the non-zero, timeout and
exception branches do not consult the test-mode flag. -/
def run_cmd_full (res : RunResult) (is_test_mode : Bool) (att : List Attempted)
    (now today : Int) (db : DB) : DB :=
  match res with
  | RunResult.exited code =>
    if code = 0 then
      if is_full_success att db then
        if is_test_mode then db else resolve_crawl_exception now db
      else
        if is_test_mode then db
        else mark_crawl_unfinished now (record_current_failures_to_compensation now today db)
    else
      mark_crawl_unfinished now (record_current_failures_to_compensation now today db)
  | RunResult.timedOut =>
      mark_crawl_unfinished now (record_current_failures_to_compensation now today db)
  | RunResult.raised _ =>
      mark_crawl_unfinished now (record_current_failures_to_compensation now today db)

/-- _run_cmd in mode "compensation": on exit 0 every attempted account is
marked compensation-completed; otherwise every attempted account is
marked compensation-failed with a branch-specific reason. -/
def run_cmd_comp (res : RunResult) (att : List Attempted)
    (now today : Int) (db : DB) : DB :=
  match res with
  | RunResult.exited code =>
    if code = 0 then
      att.foldl (fun d r => (mark_compensation_completed now today r.account_id d).2) db
    else
      att.foldl (fun d r =>
        mark_compensation_failed now today r.account_id
          (some "subprocess failed; see console") d) db
  | RunResult.timedOut =>
      att.foldl (fun d r =>
        mark_compensation_failed now today r.account_id (some "timeout") d) db
  | RunResult.raised emsg =>
      att.foldl (fun d r =>
        mark_compensation_failed now today r.account_id (some (emsg.take 200)) d) db

/-- Substring search over character lists. -/
def hasSubstr (pat : List Char) : List Char → Bool
  | [] => pat.isEmpty
  | c :: rest => pat.isPrefixOf (c :: rest) || hasSubstr pat rest

/-- ASCII lower-casing of one character (the relevant alphabet of the
target-list file names). -/
def lowerChar (c : Char) : Char :=
  if 'A' ≤ c ∧ c ≤ 'Z' then Char.ofNat (c.toNat + 32) else c

/-- self.is_test_mode = 'test' in excel_basename.lower(). -/
def is_test_mode_of (basename : String) : Bool :=
  hasSubstr (String.toList "test") ((String.toList basename).map lowerChar)

/-- Whether rows of the compensation table carry a given
(account_id, failed_date) key. -/
def hasCompKey (cs : List CompRow) (id : String) (d : Int) : Bool :=
  cs.any (compKeyMatches id d)

/-- Whether a PENDING row with a given (account_id, failed_date) key exists. -/
def hasPendingCompKey (cs : List CompRow) (id : String) (d : Int) : Bool :=
  cs.any (fun c => compKeyMatches id d c && decide (c.compensation_status = CompStatus.PENDING))

/-- Configuration of the proxy lease manager (proxy.pool section). -/
structure ProxyConfig where
  ip_lifetime : Int
  refresh_buffer : Int
  max_retries : Nat
  fallback_after_failures : Nat
deriving DecidableEq, Repr

/-- The in-memory lease state of EnhancedProxyManager. -/
structure ProxyState where
  enabled : Bool
  consecutive_failures : Nat
  upstream_proxy : Option String
  proxy_expiry_time : Option Int
  last_proxy_refresh : Option Int
deriving DecidableEq, Repr

/-- What one HTTP attempt against the provider produces: a usable
server field, a response lacking the server field, a non-SUCCESS code,
a requests exception, or unaccepted JSON.  All non-gotServer outcomes
make the attempt fail and fall through to the retry logic. -/
inductive AttemptResult where
  | gotServer (server : String)
  | noServer
  | apiFail
  | reqError
  | parseError
deriving DecidableEq, Repr

/-- Whether a provider attempt yields a server address. -/
def attemptYields : AttemptResult → Bool
  | AttemptResult.gotServer _ => true
  | _ => false

/-- The retry loop of _get_new_proxy.  Each list element is the outcome
of one HTTP attempt; the third component counts the HTTP requests made.
A successful attempt installs the proxy, stamps the expiry as
now + ip_lifetime and zeroes the consecutive failure counter. -/
def get_new_proxy_loop (cfg : ProxyConfig) (now : Int) :
    List AttemptResult → ProxyState → Nat → Bool × ProxyState × Nat
  | [], s, calls => (false, s, calls)
  | a :: rest, s, calls =>
    match a with
    | AttemptResult.gotServer srv =>
        (true,
         { s with upstream_proxy := some ("http://" ++ srv)
                  proxy_expiry_time := some (now + cfg.ip_lifetime)
                  last_proxy_refresh := some now
                  consecutive_failures := 0 },
         calls + 1)
    | _ => get_new_proxy_loop cfg now rest s (calls + 1)

/-- _get_new_proxy: up to max_retries attempts; when every attempt of
this call fails, consecutive_failures grows by one (once per call, not
per attempt) and, at fallback_after_failures, the manager disables
itself for good. -/
def get_new_proxy (cfg : ProxyConfig) (env : List AttemptResult) (now : Int)
    (s : ProxyState) : Bool × ProxyState × Nat :=
  match get_new_proxy_loop cfg now (env.take cfg.max_retries) s 0 with
  | (true, s1, calls) => (true, s1, calls)
  | (false, s1, calls) =>
    let cfNew := s1.consecutive_failures + 1
    (false,
     { s1 with consecutive_failures := cfNew
               enabled := if cfg.fallback_after_failures ≤ cfNew then false
                          else s1.enabled },
     calls)

/-- _is_proxy_valid: enabled, an expiry is set, and
now < expiry_time - refresh_buffer. -/
def is_proxy_valid (cfg : ProxyConfig) (now : Int) (s : ProxyState) : Bool :=
  if s.enabled = false then false
  else
    match s.proxy_expiry_time with
    | none => false
    | some e => decide (now < e - cfg.refresh_buffer)

/-- _refresh_proxy_if_needed: short-circuit when disabled, keep a valid
lease untouched, refresh otherwise. -/
def refresh_proxy_if_needed (cfg : ProxyConfig) (env : List AttemptResult)
    (now : Int) (s : ProxyState) : Bool × ProxyState × Nat :=
  if s.enabled = false then (false, s, 0)
  else if is_proxy_valid cfg now s then (true, s, 0)
  else get_new_proxy cfg env now s

/-- get_current_proxy: None immediately (no HTTP request) when disabled;
otherwise the refresh-if-needed path, returning the then-current
upstream proxy on success and None on failure. -/
def get_current_proxy (cfg : ProxyConfig) (env : List AttemptResult)
    (now : Int) (s : ProxyState) : Option String × ProxyState × Nat :=
  if s.enabled = false then (none, s, 0)
  else
    match refresh_proxy_if_needed cfg env now s with
    | (true, s1, calls) => (s1.upstream_proxy, s1, calls)
    | (false, s1, calls) => (none, s1, calls)

/-- The state-mutating entry points of the lease manager, with the
provider environment and clock of each call. -/
inductive ProxyOp where
  | refreshIfNeeded (env : List AttemptResult) (now : Int)
  | getProxy (env : List AttemptResult) (now : Int)
  | newProxy (env : List AttemptResult) (now : Int)
deriving Repr

/-- The state reached after one lease-manager operation. -/
def applyProxyOp (cfg : ProxyConfig) (s : ProxyState) : ProxyOp → ProxyState
  | ProxyOp.refreshIfNeeded env now => (refresh_proxy_if_needed cfg env now s).2.1
  | ProxyOp.getProxy env now => (get_current_proxy cfg env now s).2.1
  | ProxyOp.newProxy env now => (get_new_proxy cfg env now s).2.1

/-- The state reached after a sequence of lease-manager operations. -/
def runProxyOps (cfg : ProxyConfig) (s : ProxyState) (ops : List ProxyOp) :
    ProxyState :=
  ops.foldl (applyProxyOp cfg) s

/-! Concrete fixtures used by the closed evaluation theorems below. -/

/-- A default account row; fixtures override the fields they care about. -/
def baseRow : AccountRow :=
  { account_id := "A"
    account_name := "acct"
    status := AcctStatus.PENDING
    retry_count := 0
    last_exception_msg := none
    next_retry_time := none
    compensation_priority := 0
    consecutive_failures := none
    last_failed_date := none
    failed_reason_backup := none
    last_update_time := 0
    update_time := 0 }

/-- A default compensation row. -/
def baseComp : CompRow :=
  { account_id := "A"
    account_name := "acct"
    failed_date := 0
    failure_reason := none
    compensation_status := CompStatus.PENDING
    compensation_date := none
    update_time := 0 }

/-- An account that failed yesterday (day 9) and failed again today:
status EXCEPTION, last_failed_date 9, consecutive_failures 2. -/
def rowC1 : AccountRow :=
  { baseRow with status := AcctStatus.EXCEPTION
                 last_exception_msg := some "boom"
                 last_failed_date := some 9
                 consecutive_failures := some 2 }

/-- A store holding only the account of rowC1, with empty compensation
and ledger tables. -/
def dbC1 : DB :=
  { accounts := [rowC1]
    comps := []
    ledger := [] }

/-- Attempted list with accounts A and B. -/
def attC2 : List Attempted :=
  [{ account_id := "A", account_name := "a1" },
   { account_id := "B", account_name := "b1" }]

/-- A store holding a row only for A, with status COMPLETED; B has no
row at all. -/
def dbC2 : DB :=
  { accounts := [{ baseRow with status := AcctStatus.COMPLETED }]
    comps := []
    ledger := [] }

/-- Attempted list with account A only. -/
def attC3 : List Attempted := [{ account_id := "A", account_name := "a1" }]

/-- Account A has recorded crawl outcome EXCEPTION, with one PENDING
compensation record of yesterday (inside the 7-day window of day 10). -/
def dbC3 : DB :=
  { accounts := [{ baseRow with status := AcctStatus.EXCEPTION }]
    comps := [{ baseComp with failed_date := 9 }]
    ledger := [] }

/-- Account A is in EXCEPTION, and the compensation table already holds
a record for (A, today = 10) whose status is COMPLETED (its earlier
compensation succeeded before the account failed again today). -/
def dbC4 : DB :=
  { accounts := [{ baseRow with status := AcctStatus.EXCEPTION
                                last_exception_msg := some "late failure" }]
    comps := [{ baseComp with failed_date := 10
                              compensation_status := CompStatus.COMPLETED }]
    ledger := [] }

/-- Attempted list with account A only. -/
def attC5 : List Attempted := [{ account_id := "A", account_name := "a1" }]

/-- Account A ended the round in EXCEPTION, so the full-success check
fails; the ledger and compensation tables start empty. -/
def dbC5 : DB :=
  { accounts := [{ baseRow with status := AcctStatus.EXCEPTION }]
    comps := []
    ledger := [] }

/-- Lease configuration with three retries and a breaker threshold of 3. -/
def cfg6 : ProxyConfig :=
  { ip_lifetime := 60, refresh_buffer := 10, max_retries := 3,
    fallback_after_failures := 3 }

/-- An enabled lease already carrying two failed refresh rounds. -/
def s6 : ProxyState :=
  { enabled := true, consecutive_failures := 2, upstream_proxy := none,
    proxy_expiry_time := none, last_proxy_refresh := none }

/-- A lease whose breaker already tripped. -/
def s6d : ProxyState :=
  { enabled := false, consecutive_failures := 3, upstream_proxy := none,
    proxy_expiry_time := none, last_proxy_refresh := none }

/-- Three failing provider attempts: non-SUCCESS code, network error,
bad JSON. -/
def env6 : List AttemptResult :=
  [AttemptResult.apiFail, AttemptResult.reqError, AttemptResult.parseError]

/-- A provider environment answering correctly on the first attempt. -/
def env6ok : List AttemptResult := [AttemptResult.gotServer "9.9.9.9:9000"]

/-- Lease configuration of the validity witness: ip_lifetime 60 s,
refresh_buffer 10 s. -/
def cfg7 : ProxyConfig :=
  { ip_lifetime := 60, refresh_buffer := 10, max_retries := 3,
    fallback_after_failures := 3 }

/-- The lease state right after a successful refresh at t = 1000 with
ip_lifetime 60: expiry 1060. -/
def s7 : ProxyState :=
  { enabled := true, consecutive_failures := 0,
    upstream_proxy := some "http://1.2.3.4:1111",
    proxy_expiry_time := some 1060, last_proxy_refresh := some 1000 }

/-- A provider environment for the witness refresh at t + 51. -/
def env7 : List AttemptResult := [AttemptResult.gotServer "5.6.7.8:2222"]

/-- An account row carrying compensation debt. -/
def rowC8 : AccountRow :=
  { baseRow with compensation_priority := 1, consecutive_failures := some 4 }

/-- A PENDING compensation record 10 days old (day 0, today = 10). -/
def compC8 : CompRow := { baseComp with failed_date := 0 }

/-- Account A with a stale compensation backlog: its only PENDING record
is 10 days old. -/
def dbC8 : DB :=
  { accounts := [rowC8]
    comps := [compC8]
    ledger := [] }

/-- A one-account store for the reset-idempotence and test-mode
witnesses. -/
def dbC10 : DB :=
  { accounts := [{ baseRow with status := AcctStatus.FAILED }]
    comps := []
    ledger := [] }

/-! Theorems. -/

/-- C1: the claim says the reset increments consecutive_failures by
exactly 1 when last_failed_date is not already today.  Evaluating the
embedded reset at an account in EXCEPTION whose last_failed_date is
yesterday (day 9, today being day 10) shows the code moves
last_failed_date to today but leaves consecutive_failures at 2: the
MySQL left-to-right SET evaluation makes the increment condition read
the already-updated date, so no increment ever happens. -/
theorem C1_code_eval :
    (∀ a ∈ dbC1.accounts,
        a.status = AcctStatus.EXCEPTION ∧ a.last_failed_date = some 9 ∧
        a.consecutive_failures = some 2)
  ∧ (∀ a ∈ ((reset_all_accounts_to_pending 1000 10 dbC1).2).accounts,
        a.status = AcctStatus.PENDING ∧ a.last_failed_date = some 10 ∧
        a.consecutive_failures = some 2) := by decide

/-- C2 counterexample: with attempted accounts A and B where only A has
a store row (COMPLETED) and B has no row at all, the full-success check
returns true, although the claim requires false whenever an attempted
account_id has no row in the store. -/
theorem C2_counterexample :
    is_full_success attC2 dbC2 = true
  ∧ (∃ r ∈ attC2, r.account_id = "B")
  ∧ (∀ a ∈ dbC2.accounts, ¬ a.account_id = "B") := by decide

/-- C3 counterexample: on exit 0 of the compensation pass, an attempted
account whose recorded crawl outcome is EXCEPTION still has its PENDING
compensation record marked COMPLETED — the code never consults the
recorded outcome before marking. -/
theorem C3_counterexample :
    (∀ a ∈ dbC3.accounts, a.status = AcctStatus.EXCEPTION)
  ∧ (∀ c ∈ dbC3.comps, c.compensation_status = CompStatus.PENDING)
  ∧ (run_cmd_comp (RunResult.exited 0) attC3 1000 10 dbC3).comps ≠ []
  ∧ (∀ c ∈ (run_cmd_comp (RunResult.exited 0) attC3 1000 10 dbC3).comps,
        c.compensation_status = CompStatus.COMPLETED) := by decide

/-- C4 counterexample: account A is in EXCEPTION before the reset, but
the compensation table already holds a COMPLETED record for (A, today);
the ON DUPLICATE KEY UPDATE of the flush only refreshes the reason, so
after the reset no PENDING record with failed_date = today exists. -/
theorem C4_counterexample :
    (∀ a ∈ dbC4.accounts, a.status = AcctStatus.EXCEPTION ∧ a.account_id = "A")
  ∧ hasPendingCompKey ((reset_all_accounts_to_pending 1000 10 dbC4).2).comps "A" 10 = false
  ∧ hasCompKey dbC4.comps "A" 10 = true := by decide

/-- C5 counterexample: in test mode (target list named test1.xlsx), an
exit-0 full pass whose success check fails (account A is in EXCEPTION)
changes nothing: no compensation record is written and no unfinished
ledger entry is appended, although the claim requires both for every
outcome other than full success. -/
theorem C5_counterexample :
    run_cmd_full (RunResult.exited 0) (is_test_mode_of "test1.xlsx") attC5 1000 10 dbC5 = dbC5
  ∧ is_full_success attC5 dbC5 = false
  ∧ dbC5.ledger = [] ∧ dbC5.comps = []
  ∧ (∃ a ∈ dbC5.accounts, isEF a.status = true) := by decide

/-- C10: when the target-list base name contains "test"
(case-insensitively), the exit-0 branch of the full pass performs no
bookkeeping at all — the state, ledger and compensation table included,
is returned unchanged whether or not the success check passes. -/
theorem C10_test_mode (name : String) (att : List Attempted) (db : DB)
    (now today : Int) (h : is_test_mode_of name = true) :
    run_cmd_full (RunResult.exited 0) (is_test_mode_of name) att now today db = db := by
  rw [h]
  unfold run_cmd_full
  simp

/-- Witness for C10 at a concrete test-mode target list and store. -/
theorem C10_test_mode_witness :
    run_cmd_full (RunResult.exited 0) (is_test_mode_of "Test_articles.xlsx") attC5 1000 10 dbC10 = dbC10 :=
  C10_test_mode "Test_articles.xlsx" attC5 dbC10 1000 10 (by decide)

/-- A map whose function fixes every element of a list leaves the list
unchanged. -/
theorem map_self_of_fixed {α : Type} (f : α → α) (l : List α)
    (h : ∀ a ∈ l, f a = a) : l.map f = l := by
  induction l with
  | nil => rfl
  | cons a t ih =>
    simp only [List.map_cons]
    rw [h a (List.mem_cons_self a t), ih (fun b hb => h b (List.mem_cons_of_mem a hb))]

/-- A filter whose predicate rejects every element of a list is empty. -/
theorem filter_none_of_false {α : Type} (p : α → Bool) (l : List α)
    (h : ∀ a ∈ l, p a = false) : l.filter p = [] := by
  induction l with
  | nil => rfl
  | cons a t ih =>
    rw [List.filter_cons, h a (List.mem_cons_self a t)]
    simp only [Bool.false_eq_true, if_false]
    exact ih (fun b hb => h b (List.mem_cons_of_mem a hb))

/-- After reset_all_accounts_to_pending, every account row is PENDING. -/
theorem reset_all_pending (now today : Int) (db : DB) :
    ∀ a ∈ ((reset_all_accounts_to_pending now today db).2).accounts,
      a.status = AcctStatus.PENDING := by
  intro a ha
  simp only [reset_all_accounts_to_pending, resetPhase] at ha
  rw [List.mem_map] at ha
  obtain ⟨b, _, rfl⟩ := ha
  by_cases h : b.status = AcctStatus.PENDING
  · simp [h]
  · simp [h, resetStatusRow]

/-- C9: a second reset finds every row already PENDING, so its flush,
snapshot and reset phases match nothing — the state is exactly the state
after the first reset, and the call still reports success. -/
theorem C9_reset_idempotent (db : DB) (t1 d1 t2 d2 : Int) :
    reset_all_accounts_to_pending t2 d2 ((reset_all_accounts_to_pending t1 d1 db).2)
      = (true, (reset_all_accounts_to_pending t1 d1 db).2) := by
  set db1 := (reset_all_accounts_to_pending t1 d1 db).2 with hdb1
  have hall : ∀ a ∈ db1.accounts, a.status = AcctStatus.PENDING :=
    reset_all_pending t1 d1 db
  have h1 : record_failed_accounts_for_compensation t2 d2 db1 = db1 := by
    unfold record_failed_accounts_for_compensation
    rw [filter_none_of_false _ _ (fun a ha => by simp [hall a ha, isEF])]
    rfl
  have h2 : snapshotPhase d2 db1 = db1 := by
    unfold snapshotPhase
    rw [map_self_of_fixed _ _ (fun a ha => by simp [hall a ha, isEF])]
  have h3 : resetPhase t2 db1 = db1 := by
    unfold resetPhase
    rw [map_self_of_fixed _ _ (fun a ha => by simp [hall a ha])]
  show (true, resetPhase t2 (snapshotPhase d2 (record_failed_accounts_for_compensation t2 d2 db1)))
        = (true, db1)
  rw [h1, h2, h3]

/-- C2 amended: the full-success check returns true exactly when the
attempted list is non-empty, some attempted entry has a non-empty
account_id, at least one of those ids has a store row, and every store
row whose account_id is among the attempted ids is COMPLETED.  An
attempted id with no store row is simply not seen by the query and so
cannot make the check fail. -/
theorem C2_amended_thm (att : List Attempted) (db : DB) :
    is_full_success att db = true ↔
      (att ≠ [] ∧ attempted_ids att ≠ [] ∧
       (∃ a ∈ db.accounts, a.account_id ∈ attempted_ids att) ∧
       (∀ a ∈ db.accounts, a.account_id ∈ attempted_ids att →
          a.status = AcctStatus.COMPLETED)) := by
  unfold is_full_success
  by_cases h0 : att.isEmpty = true
  · simp [h0, List.isEmpty_iff.mp h0]
  · by_cases h1 : (attempted_ids att).isEmpty = true
    · simp [h0, h1, List.isEmpty_iff.mp h1]
    · by_cases h2 : (db.accounts.filter
          (fun a => decide (a.account_id ∈ attempted_ids att))).isEmpty = true
      · have h2a : ∀ a ∈ db.accounts, ¬ a.account_id ∈ attempted_ids att := by
          intro a ha
          have := List.filter_eq_nil_iff.mp (List.isEmpty_iff.mp h2) a ha
          simpa using this
        simp only [h0, h1, h2, if_false, if_true, Bool.false_eq_true]
        constructor
        · intro hfalse
          exact absurd hfalse (by simp)
        · rintro ⟨-, -, ⟨a, ha, hmem⟩, -⟩
          exact absurd hmem (h2a a ha)
      · simp only [h0, h1, h2, Bool.false_eq_true, if_false]
        rw [List.all_eq_true]
        constructor
        · intro hall
          refine ⟨fun he => h0 (by simp [he]), fun he => h1 (by simp [he]), ?_, ?_⟩
          · obtain ⟨a, ha⟩ := List.exists_mem_of_ne_nil
              (db.accounts.filter (fun a => decide (a.account_id ∈ attempted_ids att)))
              (fun he => h2 (by simp [he]))
            rw [List.mem_filter] at ha
            exact ⟨a, ha.1, by simpa using ha.2⟩
          · intro a ha hmem
            have := hall a (List.mem_filter.mpr ⟨ha, by simpa using hmem⟩)
            simpa using this
        · rintro ⟨-, -, -, hcomp⟩
          intro a ha
          rw [List.mem_filter] at ha
          simpa using hcomp a ha.1 (by simpa using ha.2)

/-- C8: mark_compensation_completed leaves every compensation record
untouched unless it is a PENDING record of the marked account inside the
trailing 7-day window — a 10-day-old PENDING record survives as is —
while the account row still gets compensation_priority 0 and
consecutive_failures 0. -/
theorem C8_seven_day_window (db : DB) (now today : Int) (X : String)
    (c : CompRow) (a : AccountRow)
    (hc : c ∈ db.comps) (hcm : compInWindowPending today X c = false)
    (ha : a ∈ db.accounts) (haX : a.account_id = X) :
    c ∈ ((mark_compensation_completed now today X db).2).comps
  ∧ (∃ b ∈ ((mark_compensation_completed now today X db).2).accounts,
       b.account_id = X ∧ b.compensation_priority = 0 ∧
       b.consecutive_failures = some 0) := by
  constructor
  · unfold mark_compensation_completed
    exact List.mem_map.mpr ⟨c, hc, by simp [hcm]⟩
  · refine ⟨completedAccountRow now a, ?_, by simp [completedAccountRow, haX], rfl, rfl⟩
    unfold mark_compensation_completed
    exact List.mem_map.mpr ⟨a, ha, by simp [haX]⟩

/-- Witness for C8: today is day 10, the only PENDING record of account
A dates from day 0 and survives the mark-complete untouched. -/
theorem C8_seven_day_window_witness :
    compC8 ∈ ((mark_compensation_completed 1000 10 "A" dbC8).2).comps
  ∧ (∃ b ∈ ((mark_compensation_completed 1000 10 "A" dbC8).2).accounts,
       b.account_id = "A" ∧ b.compensation_priority = 0 ∧
       b.consecutive_failures = some 0) :=
  C8_seven_day_window dbC8 1000 10 "A" compC8 rowC8
    (by decide) (by decide) (by decide) (by decide)

/-- A failing attempt at the head of the retry loop just consumes one
HTTP call. -/
theorem loop_cons_fail (cfg : ProxyConfig) (now : Int) (a : AttemptResult)
    (t : List AttemptResult) (s : ProxyState) (calls : Nat)
    (ha : attemptYields a = false) :
    get_new_proxy_loop cfg now (a :: t) s calls
      = get_new_proxy_loop cfg now t s (calls + 1) := by
  cases a
  case gotServer srv => simp [attemptYields] at ha
  all_goals rfl

/-- When every attempt fails, the retry loop fails, leaves the state
untouched, and makes one HTTP call per attempt. -/
theorem get_new_proxy_loop_all_fail (cfg : ProxyConfig) (now : Int)
    (l : List AttemptResult) (s : ProxyState) (calls : Nat)
    (h : ∀ a ∈ l, attemptYields a = false) :
    get_new_proxy_loop cfg now l s calls = (false, s, calls + l.length) := by
  induction l generalizing calls with
  | nil => rfl
  | cons a t ih =>
    rw [loop_cons_fail cfg now a t s calls (h a (List.mem_cons_self a t)),
        ih (calls + 1) (fun b hb => h b (List.mem_cons_of_mem a hb)),
        List.length_cons, Nat.add_assoc, Nat.add_comm 1]

/-- A successful run of the retry loop consumed at least one HTTP call. -/
theorem loop_success_calls_pos (cfg : ProxyConfig) (now : Int) :
    ∀ (l : List AttemptResult) (s : ProxyState) (calls : Nat)
      (s1 : ProxyState) (c1 : Nat),
      get_new_proxy_loop cfg now l s calls = (true, s1, c1) → calls < c1 := by
  intro l
  induction l with
  | nil =>
    intro s calls s1 c1 h
    exact absurd h (by simp [get_new_proxy_loop])
  | cons a t ih =>
    intro s calls s1 c1 h
    cases a
    case gotServer srv =>
      have h3 : calls + 1 = c1 := by
        simpa using congrArg (fun x => x.2.2) h
      omega
    all_goals {
      have := ih s (calls + 1) s1 c1 h
      omega
    }

/-- The retry loop never changes the enabled flag. -/
theorem get_new_proxy_loop_enabled (cfg : ProxyConfig) (now : Int) :
    ∀ (l : List AttemptResult) (s : ProxyState) (calls : Nat),
      (get_new_proxy_loop cfg now l s calls).2.1.enabled = s.enabled := by
  intro l
  induction l with
  | nil => intro s calls; rfl
  | cons a t ih =>
    intro s calls
    cases a
    case gotServer srv => rfl
    all_goals exact ih s (calls + 1)

/-- _get_new_proxy when every attempt of the call fails: one increment
of consecutive_failures for the whole call, breaker tripped at the
threshold, one HTTP call per attempt. -/
theorem get_new_proxy_all_fail (cfg : ProxyConfig) (env : List AttemptResult)
    (now : Int) (s : ProxyState)
    (h : ∀ a ∈ env.take cfg.max_retries, attemptYields a = false) :
    get_new_proxy cfg env now s =
      (false,
       { s with consecutive_failures := s.consecutive_failures + 1
                enabled := if cfg.fallback_after_failures ≤ s.consecutive_failures + 1
                           then false else s.enabled },
       (env.take cfg.max_retries).length) := by
  unfold get_new_proxy
  rw [get_new_proxy_loop_all_fail cfg now _ s 0 h]
  simp

/-- A successful _get_new_proxy made at least one HTTP call. -/
theorem get_new_proxy_calls_pos (cfg : ProxyConfig) (env : List AttemptResult)
    (now : Int) (s s1 : ProxyState) (calls : Nat)
    (h : get_new_proxy cfg env now s = (true, s1, calls)) : 0 < calls := by
  unfold get_new_proxy at h
  rcases hres : get_new_proxy_loop cfg now (env.take cfg.max_retries) s 0 with ⟨b, s2, c2⟩
  rw [hres] at h
  cases b
  · simp at h
  · have hpos := loop_success_calls_pos cfg now (env.take cfg.max_retries) s 0 s2 c2 hres
    have hc : c2 = calls := by simpa using congrArg (fun x => x.2.2) h
    omega

/-- _get_new_proxy never turns a disabled manager back on. -/
theorem get_new_proxy_enabled_mono (cfg : ProxyConfig) (env : List AttemptResult)
    (now : Int) (s : ProxyState) (hd : s.enabled = false) :
    (get_new_proxy cfg env now s).2.1.enabled = false := by
  unfold get_new_proxy
  have hen := get_new_proxy_loop_enabled cfg now (env.take cfg.max_retries) s 0
  rcases hres : get_new_proxy_loop cfg now (env.take cfg.max_retries) s 0 with ⟨b, s1, calls⟩
  rw [hres] at hen
  have hen2 : s1.enabled = s.enabled := hen
  cases b
  · show (if cfg.fallback_after_failures ≤ s1.consecutive_failures + 1 then false
          else s1.enabled) = false
    split
    · rfl
    · rw [hen2, hd]
  · exact hen2.trans hd

/-- Once disabled, the lease manager stays disabled under every
operation sequence, successful provider responses included. -/
theorem proxy_disabled_persists (cfg : ProxyConfig) :
    ∀ (ops : List ProxyOp) (s : ProxyState), s.enabled = false →
      (runProxyOps cfg s ops).enabled = false := by
  intro ops
  induction ops with
  | nil => intro s hd; exact hd
  | cons op t ih =>
    intro s hd
    refine ih (applyProxyOp cfg s op) ?_
    cases op with
    | refreshIfNeeded env now => simp [applyProxyOp, refresh_proxy_if_needed, hd]
    | getProxy env now => simp [applyProxyOp, get_current_proxy, hd]
    | newProxy env now => exact get_new_proxy_enabled_mono cfg env now s hd

/-- C6: a refresh call whose attempts all fail adds exactly one to
consecutive_failures; at the fallback threshold the manager disables
itself; a disabled manager stays disabled under every later operation
(successful responses included); and while disabled, get_current_proxy
answers none with zero HTTP calls and no state change. -/
theorem C6_breaker (cfg : ProxyConfig) (s : ProxyState) (env : List AttemptResult)
    (now : Int) (ops : List ProxyOp)
    (hfail : ∀ a ∈ env.take cfg.max_retries, attemptYields a = false) :
    ((get_new_proxy cfg env now s).2.1.consecutive_failures = s.consecutive_failures + 1)
  ∧ (cfg.fallback_after_failures ≤ s.consecutive_failures + 1 →
       (get_new_proxy cfg env now s).2.1.enabled = false)
  ∧ (s.enabled = false → (runProxyOps cfg s ops).enabled = false)
  ∧ (s.enabled = false → get_current_proxy cfg env now s = (none, s, 0)) := by
  have hfa := get_new_proxy_all_fail cfg env now s hfail
  refine ⟨?_, ?_, fun hd => proxy_disabled_persists cfg ops s hd, fun hd => ?_⟩
  · rw [hfa]
  · intro hth
    rw [hfa]
    simp [hth]
  · simp [get_current_proxy, hd]

/-- Witness for C6: with threshold 3 and a third all-fail refresh, the
breaker trips; the tripped manager survives a later successful provider
response disabled and answers none without any HTTP call. -/
theorem C6_breaker_witness :
    (get_new_proxy cfg6 env6 1000 s6).2.1.enabled = false
  ∧ (get_new_proxy cfg6 env6 1000 s6).2.1.consecutive_failures = 3
  ∧ (runProxyOps cfg6 s6d [ProxyOp.newProxy env6ok 2000]).enabled = false
  ∧ get_current_proxy cfg6 env6 1500 s6d = (none, s6d, 0) := by
  have h := C6_breaker cfg6 s6 env6 1000 [] (by decide)
  have h2 := C6_breaker cfg6 s6d env6 1500 [ProxyOp.newProxy env6ok 2000] (by decide)
  exact ⟨h.2.1 (by decide), h.1, h2.2.2.1 rfl, h2.2.2.2 rfl⟩

/-- C7: while enabled with a cached lease, get_current_proxy returns
the cached address with zero HTTP calls and no state change exactly
when now is before expiry minus the refresh buffer; past that boundary
it runs the refresh path. -/
theorem C7_lease_validity (cfg : ProxyConfig) (s : ProxyState) (env : List AttemptResult)
    (now e : Int) (p : String)
    (hen : s.enabled = true) (hp : s.upstream_proxy = some p)
    (he : s.proxy_expiry_time = some e) :
    (get_current_proxy cfg env now s = (some p, s, 0) ↔ now < e - cfg.refresh_buffer)
  ∧ (¬ now < e - cfg.refresh_buffer →
       get_current_proxy cfg env now s =
         (match get_new_proxy cfg env now s with
          | (true, s1, calls) => (s1.upstream_proxy, s1, calls)
          | (false, s1, calls) => (none, s1, calls))) := by
  have hv : is_proxy_valid cfg now s = decide (now < e - cfg.refresh_buffer) := by
    simp [is_proxy_valid, hen, he]
  have hgc : get_current_proxy cfg env now s =
      (match refresh_proxy_if_needed cfg env now s with
       | (true, s1, calls) => (s1.upstream_proxy, s1, calls)
       | (false, s1, calls) => (none, s1, calls)) := by
    simp [get_current_proxy, hen]
  by_cases hlt : now < e - cfg.refresh_buffer
  · have hr : refresh_proxy_if_needed cfg env now s = (true, s, 0) := by
      simp [refresh_proxy_if_needed, hen, hv, hlt]
    constructor
    · rw [hgc, hr]
      simp [hp, hlt]
    · intro hc
      exact absurd hlt hc
  · have hr : refresh_proxy_if_needed cfg env now s = get_new_proxy cfg env now s := by
      simp [refresh_proxy_if_needed, hen, hv, hlt]
    constructor
    · rw [hgc, hr]
      constructor
      · intro heq
        exfalso
        rcases hres : get_new_proxy cfg env now s with ⟨b, s1, calls⟩
        rw [hres] at heq
        cases b
        · simp at heq
        · have hpos := get_new_proxy_calls_pos cfg env now s s1 calls hres
          have hc0 : calls = 0 := by simpa using congrArg (fun x => x.2.2) heq
          omega
      · intro hc
        exact absurd hc hlt
    · intro _
      rw [hgc, hr]

/-- Witness for C7: after a refresh at t = 1000 with lifetime 60 and
buffer 10, the call at t + 45 returns the cached address with no HTTP
call, and the call at t + 51 performs exactly one provider request. -/
theorem C7_lease_validity_witness :
    get_current_proxy cfg7 env7 1045 s7 = (some "http://1.2.3.4:1111", s7, 0)
  ∧ (get_current_proxy cfg7 env7 1051 s7).2.2 = 1 := by
  have h45 := C7_lease_validity cfg7 s7 env7 1045 1060 "http://1.2.3.4:1111" rfl rfl rfl
  have h51 := C7_lease_validity cfg7 s7 env7 1051 1060 "http://1.2.3.4:1111" rfl rfl rfl
  refine ⟨h45.1.mpr (by decide), ?_⟩
  rw [h51.2 (by decide)]
  decide

/-- An upsert installs its own (account_id, today) key: either the
existing keyed rows keep their key through the reason refresh, or a new
keyed row is appended. -/
theorem upsert_hasKey_self (now today : Int) (r : AccountRow) (cs : List CompRow) :
    hasCompKey (upsertCompensation now today r cs) r.account_id today = true := by
  unfold upsertCompensation
  split
  case isTrue h =>
    obtain ⟨c, hc, hkey⟩ := List.any_eq_true.mp h
    rw [hasCompKey, List.any_eq_true]
    refine ⟨_, List.mem_map.mpr ⟨c, hc, rfl⟩, ?_⟩
    rw [if_pos hkey]
    simpa [compKeyMatches] using hkey
  case isFalse h =>
    simp [hasCompKey, List.any_append, compKeyMatches]

/-- An upsert never removes an (account_id, failed_date) key. -/
theorem upsert_hasKey_mono (now today : Int) (r : AccountRow) (cs : List CompRow)
    (id : String) (d : Int) (h : hasCompKey cs id d = true) :
    hasCompKey (upsertCompensation now today r cs) id d = true := by
  obtain ⟨c, hc, hkey⟩ := List.any_eq_true.mp h
  unfold upsertCompensation
  split
  · rw [hasCompKey, List.any_eq_true]
    refine ⟨_, List.mem_map.mpr ⟨c, hc, rfl⟩, ?_⟩
    by_cases hck : compKeyMatches r.account_id today c = true
    · rw [if_pos hck]
      simpa [compKeyMatches] using hkey
    · rw [if_neg hck]
      exact hkey
  · rw [hasCompKey, List.any_append]
    rw [hasCompKey] at h
    simp [h]

/-- An upsert never loses a PENDING keyed row: an update keeps the key
and the status, an insert adds an unrelated row. -/
theorem upsert_pending_mono (now today : Int) (r : AccountRow) (cs : List CompRow)
    (id : String) (d : Int) (h : hasPendingCompKey cs id d = true) :
    hasPendingCompKey (upsertCompensation now today r cs) id d = true := by
  obtain ⟨c, hc, hkey⟩ := List.any_eq_true.mp h
  unfold upsertCompensation
  split
  · rw [hasPendingCompKey, List.any_eq_true]
    refine ⟨_, List.mem_map.mpr ⟨c, hc, rfl⟩, ?_⟩
    by_cases hck : compKeyMatches r.account_id today c = true
    · rw [if_pos hck]
      simpa [compKeyMatches] using hkey
    · rw [if_neg hck]
      exact hkey
  · rw [hasPendingCompKey, List.any_append]
    rw [hasPendingCompKey] at h
    simp [h]

/-- Upserting an account into a table without that account's key for
today: the account's own upsert creates a PENDING keyed row, anyone
else's upsert leaves the key absent. -/
theorem upsert_absent (now today : Int) (r : AccountRow) (cs : List CompRow)
    (id : String) (habs : hasCompKey cs id today = false) :
    (r.account_id = id →
       hasPendingCompKey (upsertCompensation now today r cs) id today = true)
  ∧ (¬ r.account_id = id →
       hasCompKey (upsertCompensation now today r cs) id today = false) := by
  constructor
  · intro hid
    subst hid
    unfold upsertCompensation
    rw [if_neg (by rw [hasCompKey] at habs; simp [habs])]
    simp [hasPendingCompKey, List.any_append, compKeyMatches]
  · intro hne
    have hall : ∀ c ∈ cs, ¬ compKeyMatches id today c = true :=
      List.any_eq_false.mp (by rw [hasCompKey] at habs; exact habs)
    unfold upsertCompensation
    split
    · rw [hasCompKey, List.any_eq_false]
      intro x hx
      obtain ⟨c, hc, rfl⟩ := List.mem_map.mp hx
      by_cases hck : compKeyMatches r.account_id today c = true
      · rw [if_pos hck]
        intro hcontra
        exact hall c hc (by simpa [compKeyMatches] using hcontra)
      · rw [if_neg hck]
        exact hall c hc
    · rw [hasCompKey, List.any_append]
      have h1 : cs.any (compKeyMatches id today) = false := by
        rw [hasCompKey] at habs
        exact habs
      rw [h1]
      simp [compKeyMatches, hne]

/-- A key survives the whole flush fold. -/
theorem flush_fold_hasKey_mono (now today : Int) (id : String) (d : Int) :
    ∀ (l : List AccountRow) (cs : List CompRow),
      hasCompKey cs id d = true →
      hasCompKey (l.foldl (fun cs a => upsertCompensation now today a cs) cs) id d = true := by
  intro l
  induction l with
  | nil => intro cs h; exact h
  | cons a t ih =>
    intro cs h
    rw [List.foldl_cons]
    exact ih _ (upsert_hasKey_mono now today a cs id d h)

/-- A PENDING keyed row survives the whole flush fold. -/
theorem flush_fold_pending_mono (now today : Int) (id : String) (d : Int) :
    ∀ (l : List AccountRow) (cs : List CompRow),
      hasPendingCompKey cs id d = true →
      hasPendingCompKey (l.foldl (fun cs a => upsertCompensation now today a cs) cs) id d = true := by
  intro l
  induction l with
  | nil => intro cs h; exact h
  | cons a t ih =>
    intro cs h
    rw [List.foldl_cons]
    exact ih _ (upsert_pending_mono now today a cs id d h)

/-- After the flush fold, every flushed account has its
(account_id, today) key in the compensation table. -/
theorem flush_fold_hasKey (now today : Int) :
    ∀ (l : List AccountRow) (cs : List CompRow) (r : AccountRow), r ∈ l →
      hasCompKey (l.foldl (fun cs a => upsertCompensation now today a cs) cs)
        r.account_id today = true := by
  intro l
  induction l with
  | nil =>
    intro cs r hr
    exact absurd hr (List.not_mem_nil r)
  | cons a t ih =>
    intro cs r hr
    rw [List.foldl_cons]
    rcases List.mem_cons.mp hr with h | h
    · subst h
      exact flush_fold_hasKey_mono now today r.account_id today t _
        (upsert_hasKey_self now today r cs)
    · exact ih _ r h

/-- When no (account_id, today) key pre-existed for a flushed account,
the flush fold leaves a PENDING keyed row for it: inserts are PENDING
and updates never change a status. -/
theorem flush_fold_pending (now today : Int) :
    ∀ (l : List AccountRow) (cs : List CompRow) (r : AccountRow), r ∈ l →
      hasCompKey cs r.account_id today = false →
      hasPendingCompKey (l.foldl (fun cs a => upsertCompensation now today a cs) cs)
        r.account_id today = true := by
  intro l
  induction l with
  | nil =>
    intro cs r hr
    exact absurd hr (List.not_mem_nil r)
  | cons a t ih =>
    intro cs r hr habs
    rw [List.foldl_cons]
    by_cases ha : a.account_id = r.account_id
    · exact flush_fold_pending_mono now today r.account_id today t _
        ((upsert_absent now today a cs r.account_id habs).1 ha)
    · have hrt : r ∈ t := by
        rcases List.mem_cons.mp hr with h | h
        · exact absurd (by rw [h]) ha
        · exact h
      exact ih _ r hrt ((upsert_absent now today a cs r.account_id habs).2 ha)

/-- C4 amended: after the reset every formerly EXCEPTION or FAILED
account is PENDING and carries a CompensationRecord keyed
(account_id, today); that record is PENDING whenever no record for
(account_id, today) pre-existed — a pre-existing record keeps its old
compensation_status, only its reason and update time being refreshed. -/
theorem C4_amended_thm (db : DB) (now today : Int) (r : AccountRow)
    (hr : r ∈ db.accounts) (hef : isEF r.status = true) :
    (∀ a ∈ ((reset_all_accounts_to_pending now today db).2).accounts,
        a.status = AcctStatus.PENDING)
  ∧ hasCompKey ((reset_all_accounts_to_pending now today db).2).comps r.account_id today = true
  ∧ (hasCompKey db.comps r.account_id today = false →
       hasPendingCompKey ((reset_all_accounts_to_pending now today db).2).comps
         r.account_id today = true) := by
  have hcomps : ((reset_all_accounts_to_pending now today db).2).comps
      = (db.accounts.filter (fun a => isEF a.status)).foldl
          (fun cs a => upsertCompensation now today a cs) db.comps := rfl
  have hrf : r ∈ db.accounts.filter (fun a => isEF a.status) :=
    List.mem_filter.mpr ⟨hr, hef⟩
  refine ⟨reset_all_pending now today db, ?_, ?_⟩
  · rw [hcomps]
    exact flush_fold_hasKey now today _ db.comps r hrf
  · intro habs
    rw [hcomps]
    exact flush_fold_pending now today _ db.comps r hrf habs

/-- Witness for C4 amended: the day-10 reset of the one-account store of
rowC1 (status EXCEPTION, no prior compensation rows). -/
theorem C4_amended_thm_witness :
    (∀ a ∈ ((reset_all_accounts_to_pending 1000 10 dbC1).2).accounts,
        a.status = AcctStatus.PENDING)
  ∧ hasCompKey ((reset_all_accounts_to_pending 1000 10 dbC1).2).comps rowC1.account_id 10 = true
  ∧ (hasCompKey dbC1.comps rowC1.account_id 10 = false →
       hasPendingCompKey ((reset_all_accounts_to_pending 1000 10 dbC1).2).comps
         rowC1.account_id 10 = true) :=
  C4_amended_thm dbC1 1000 10 rowC1 (by decide) (by decide)

/-- Marking a round of accounts compensation-completed never touches
the ledger. -/
theorem markAll_ledger (now today : Int) :
    ∀ (att : List Attempted) (db : DB),
      (att.foldl (fun d r => (mark_compensation_completed now today r.account_id d).2) db).ledger
        = db.ledger := by
  intro att
  induction att with
  | nil => intro db; rfl
  | cons r t ih =>
    intro db
    rw [List.foldl_cons]
    exact ih _

/-- A compensation row whose account was not attempted survives the
whole completion fold unchanged. -/
theorem markAll_comp_frame (now today : Int) (c : CompRow) :
    ∀ (att : List Attempted) (db : DB),
      (∀ r ∈ att, ¬ r.account_id = c.account_id) → c ∈ db.comps →
      c ∈ (att.foldl (fun d r => (mark_compensation_completed now today r.account_id d).2) db).comps := by
  intro att
  induction att with
  | nil => intro db _ hc; exact hc
  | cons r t ih =>
    intro db hne hc
    rw [List.foldl_cons]
    refine ih _ (fun b hb => hne b (List.mem_cons_of_mem r hb)) ?_
    have hid : ¬ c.account_id = r.account_id :=
      fun h => hne r (List.mem_cons_self r t) h.symm
    exact List.mem_map.mpr ⟨c, hc, by simp [compInWindowPending, hid]⟩

/-- An account row whose account was not attempted survives the whole
completion fold unchanged. -/
theorem markAll_account_frame (now today : Int) (a : AccountRow) :
    ∀ (att : List Attempted) (db : DB),
      (∀ r ∈ att, ¬ r.account_id = a.account_id) → a ∈ db.accounts →
      a ∈ (att.foldl (fun d r => (mark_compensation_completed now today r.account_id d).2) db).accounts := by
  intro att
  induction att with
  | nil => intro db _ ha; exact ha
  | cons r t ih =>
    intro db hne ha
    rw [List.foldl_cons]
    refine ih _ (fun b hb => hne b (List.mem_cons_of_mem r hb)) ?_
    have hid : ¬ a.account_id = r.account_id :=
      fun h => hne r (List.mem_cons_self r t) h.symm
    exact List.mem_map.mpr ⟨a, ha, by simp [hid]⟩

/-- A row already marked COMPLETED is never matched again, so it
survives the rest of the completion fold. -/
theorem markAll_completed_persists (now today : Int) (c : CompRow) :
    ∀ (att : List Attempted) (db : DB),
      completedCompRow now today c ∈ db.comps →
      completedCompRow now today c ∈
        (att.foldl (fun d r => (mark_compensation_completed now today r.account_id d).2) db).comps := by
  intro att
  induction att with
  | nil => intro db hc; exact hc
  | cons r t ih =>
    intro db hc
    rw [List.foldl_cons]
    refine ih _ ?_
    exact List.mem_map.mpr ⟨_, hc, by simp [compInWindowPending, completedCompRow]⟩

/-- Every in-window PENDING compensation row of an attempted account is
unconditionally completed by the exit-0 completion fold. -/
theorem markAll_completes (now today : Int) (c : CompRow) :
    ∀ (att : List Attempted) (db : DB),
      c ∈ db.comps →
      compInWindowPending today c.account_id c = true →
      (∃ r ∈ att, r.account_id = c.account_id) →
      completedCompRow now today c ∈
        (att.foldl (fun d r => (mark_compensation_completed now today r.account_id d).2) db).comps := by
  intro att
  induction att with
  | nil =>
    rintro db _ _ ⟨r, hr, -⟩
    exact absurd hr (List.not_mem_nil r)
  | cons r t ih =>
    rintro db hc hcm ⟨r0, hr0, hid0⟩
    rw [List.foldl_cons]
    by_cases hid : r.account_id = c.account_id
    · refine markAll_completed_persists now today c t _ ?_
      refine List.mem_map.mpr ⟨c, hc, ?_⟩
      have hcm2 : compInWindowPending today r.account_id c = true := by
        rw [hid]
        exact hcm
      simp [hcm2]
    · have hr0t : r0 ∈ t := by
        rcases List.mem_cons.mp hr0 with h | h
        · exact absurd (by rw [h] at hid0; exact hid0) hid
        · exact h
      have hid2 : ¬ c.account_id = r.account_id := fun h => hid h.symm
      refine ih _ ?_ hcm ⟨r0, hr0t, hid0⟩
      exact List.mem_map.mpr ⟨c, hc, by simp [compInWindowPending, hid2]⟩

/-- C3 amended: on exit 0 of the compensation pass, no ledger entry is
written and accounts outside the attempted list are never touched, but
every attempted account is unconditionally marked
compensation-completed — its in-window PENDING records turn COMPLETED
with no check of its recorded crawl outcome. -/
theorem C3_amended_thm (att : List Attempted) (db : DB) (now today : Int) :
    (run_cmd_comp (RunResult.exited 0) att now today db).ledger = db.ledger
  ∧ (∀ c ∈ db.comps, (∀ r ∈ att, ¬ r.account_id = c.account_id) →
       c ∈ (run_cmd_comp (RunResult.exited 0) att now today db).comps)
  ∧ (∀ a ∈ db.accounts, (∀ r ∈ att, ¬ r.account_id = a.account_id) →
       a ∈ (run_cmd_comp (RunResult.exited 0) att now today db).accounts)
  ∧ (∀ c ∈ db.comps, (∃ r ∈ att, r.account_id = c.account_id) →
       compInWindowPending today c.account_id c = true →
       completedCompRow now today c ∈ (run_cmd_comp (RunResult.exited 0) att now today db).comps) := by
  have hrun : run_cmd_comp (RunResult.exited 0) att now today db
      = att.foldl (fun d r => (mark_compensation_completed now today r.account_id d).2) db := by
    simp [run_cmd_comp]
  rw [hrun]
  exact ⟨markAll_ledger now today att db,
         fun c hc hne => markAll_comp_frame now today c att db hne hc,
         fun a ha hne => markAll_account_frame now today a att db hne ha,
         fun c hc hex hcm => markAll_completes now today c att db hc hcm hex⟩

/-- C5 amended: when not in test mode, every full-pass outcome other
than full success records the current failures to compensation and
appends one unfinished ledger entry, and the three abnormal
terminations (non-zero exit, timeout, invocation exception) are treated
identically in every mode. -/
theorem C5_amended_thm (tm : Bool) (att : List Attempted) (db : DB)
    (now today : Int) (code : Int) (emsg : String) (hcode : ¬ code = 0) :
    (run_cmd_full (RunResult.exited code) tm att now today db
       = mark_crawl_unfinished now (record_current_failures_to_compensation now today db))
  ∧ (run_cmd_full RunResult.timedOut tm att now today db
       = mark_crawl_unfinished now (record_current_failures_to_compensation now today db))
  ∧ (run_cmd_full (RunResult.raised emsg) tm att now today db
       = mark_crawl_unfinished now (record_current_failures_to_compensation now today db))
  ∧ (is_full_success att db = false →
       run_cmd_full (RunResult.exited 0) false att now today db
         = mark_crawl_unfinished now (record_current_failures_to_compensation now today db))
  ∧ (mark_crawl_unfinished now (record_current_failures_to_compensation now today db)).ledger
       = db.ledger ++ [{ finished_date := now, status := LedgerStatus.unfinished }] := by
  refine ⟨by simp [run_cmd_full, hcode], rfl, rfl, ?_, rfl⟩
  intro hfs
  simp [run_cmd_full, hfs]

/-- Witness for C5 amended: a non-zero exit in test mode and an exit-0
partial failure in normal mode both produce the unfinished bookkeeping. -/
theorem C5_amended_thm_witness :
    run_cmd_full (RunResult.exited 2) true attC5 1000 10 dbC5
      = mark_crawl_unfinished 1000 (record_current_failures_to_compensation 1000 10 dbC5)
  ∧ run_cmd_full (RunResult.exited 0) false attC5 1000 10 dbC5
      = mark_crawl_unfinished 1000 (record_current_failures_to_compensation 1000 10 dbC5) := by
  have h := C5_amended_thm true attC5 dbC5 1000 10 2 "err" (by decide)
  exact ⟨h.1, h.2.2.2.1 (by decide)⟩

end AWC
